import Mathlib

/-!
Verification of the LLMOCR image-captioning utility (`joy-caption.py`).

The development shallowly embeds the program's pure logic:

* `splitext` models Python's `os.path.splitext` (posix rules);
* `LLMProcessor.save_result` models result persistence, with the file system
  as an explicit map `String → Option String` and an oracle
  `writeOk : String → Bool` saying whether opening/writing a given path
  succeeds (the Python code catches any exception and returns `False`);
* `LLMProcessor.process_file` models the two-step orchestration, with the
  image-preprocessing and inference collaborators as oracle functions, and
  records the collaborator calls it makes;
* `ProcessingThread.run` models the worker loop, producing the ordered list
  of emitted events (progress / finished / error / result_ready signals,
  plus records of `process_file` and `save_result` invocations);
* `parse_max_length` models `int(t) if t.isdigit() else 256` from
  `MainWindow.process_files` (ASCII digits; Python's `int` on an ASCII digit
  string is plain decimal parsing).
-/

namespace JoyCaption

/-- Index of the last occurrence of character `c` in the list, `-1` when the
character does not occur: Python's `str.rfind`. -/
def rfind (c : Char) : List Char → Int
  | [] => -1
  | x :: xs =>
    let r := rfind c xs
    if r ≥ 0 then r + 1 else if x = c then 0 else -1

/-- Python `posixpath.splitext`: split `p` into `(root, ext)`.  The extension
starts at the last dot, provided that dot lies after the last path separator
and some character of the file name before the dot is not a dot (so that
leading dots of a hidden file are not an extension). -/
def splitext (p : String) : String × String :=
  if rfind '.' p.data > rfind '/' p.data ∧
      (((p.data.drop (rfind '/' p.data + 1).toNat).take
          (rfind '.' p.data - rfind '/' p.data - 1).toNat).any fun c => !(c == '.')) = true
  then (String.mk (p.data.take (rfind '.' p.data).toNat),
        String.mk (p.data.drop (rfind '.' p.data).toNat))
  else (p, "")

/-- The path a result is persisted at:
`os.path.splitext(output_path)[0] + ".txt"` (line 44 of the source). -/
def txt_output_path (output_path : String) : String :=
  (splitext output_path).1 ++ ".txt"

/-- The file system, as a map from path to content. -/
abbrev FS := String → Option String

namespace LLMProcessor

/-- Model of `LLMProcessor.save_result`: write `result` to the source path with its
extension replaced by `.txt`.  `writeOk` is the oracle for whether the
`open`/`write` raises; on failure the function returns `false` and leaves the
file system unchanged (the exception is caught, never propagated). -/
def save_result (writeOk : String → Bool) (fs : FS) (result output_path : String) :
    FS × Bool :=
  let t := txt_output_path output_path
  if writeOk t then (fun q => if q = t then some result else fs q, true)
  else (fs, false)

end LLMProcessor

/-- The configuration state of an `LLMProcessor` (lines 15-20): the four
constructor arguments plus the image-resize bound the constructor fixes for
its `ImageProcessor` collaborator. -/
structure LLMProcessor where
  api_url : String
  system_instruction : String
  instruction : String
  max_length : Nat
  max_dimension : Nat
deriving DecidableEq

/-- Model of `LLMProcessor.__init__`: stores the instructions and the length limit and
creates an `ImageProcessor(max_dimension=384)`. -/
def LLMProcessor.init (api_url : String) (system_instruction : String)
    (instruction : String) (max_length : Nat) : LLMProcessor :=
  { api_url := api_url
    system_instruction := system_instruction
    instruction := instruction
    max_length := max_length
    max_dimension := 384 }

/-- The argument record of one `core.wrap_and_generate` call (lines 27-37).
The sampling constants are exact decimal values, modelled as rationals. -/
structure GenParams where
  instruction : String
  system_instruction : String
  images : List String
  max_length : Nat
  top_p : Rat
  top_k : Nat
  temp : Rat
  rep_pen : Rat
  min_p : Rat
deriving DecidableEq

/-- A collaborator call made by `process_file`: either
`image_processor.process_image` (with the processor's configured
`max_dimension` and the file path) or `core.wrap_and_generate` (with its full
argument record). -/
inductive Call where
  | image (max_dimension : Nat) (path : String)
  | generate (p : GenParams)
deriving DecidableEq

/-- Model of `LLMProcessor.process_file` (lines 24-40): first delegates to the image
preprocessor (oracle `procImage`, taking the configured bound and the path,
returning the encoded image and the output-path hint or raising), then calls
the inference collaborator (oracle `gen`) with the fixed sampling
configuration.  Returns the outcome together with the ordered list of
collaborator calls made. -/
def LLMProcessor.process_file (P : LLMProcessor)
    (procImage : Nat → String → Except String (String × String))
    (gen : GenParams → Except String (Option String))
    (file_path : String) :
    Except String (Option String × String) × List Call :=
  match procImage P.max_dimension file_path with
  | Except.error e => (Except.error e, [Call.image P.max_dimension file_path])
  | Except.ok enc =>
    let params : GenParams :=
      { instruction := P.instruction
        system_instruction := P.system_instruction
        images := [enc.1]
        max_length := P.max_length
        top_p := 95 / 100
        top_k := 0
        temp := 6 / 10
        rep_pen := 11 / 10
        min_p := 1 / 10 }
    (match gen params with
     | Except.error e => Except.error e
     | Except.ok result => Except.ok (result, enc.2),
     [Call.image P.max_dimension file_path, Call.generate params])

/-- Decimal value of an ASCII digit string, as Python's `int` computes it
for such input. -/
def strToNat (s : String) : Nat :=
  s.data.foldl (fun a c => a * 10 + (c.toNat - 48)) 0

/-- Python `str.isdigit` restricted to ASCII: nonempty and all characters are
decimal digits. -/
def isdigit (s : String) : Bool :=
  !s.data.isEmpty && s.data.all Char.isDigit

/-- The max-length configuration of `MainWindow.process_files` (line 161):
`int(self.max_length_input.text()) if self.max_length_input.text().isdigit() else 256`. -/
def parse_max_length (s : String) : Nat :=
  if isdigit s then strToNat s else 256

/-- Truthiness of the Python value `result : Optional[str]` in
`if result:` (line 70): `None` and the empty string are falsy. -/
def truthy : Option String → Bool
  | none => false
  | some s => !(s == "")

/-- One event of a worker run, in emission order: the Qt signals
(`progress`, `finished`, `error`, `result_ready`) plus records of the
`process_file` and `save_result` invocations the worker makes. -/
inductive Event where
  | callProcess (path : String)
  | callSave (text : String) (path : String) (ok : Bool)
  | progress (current : Nat) (total : Nat)
  | resultReady (text : String)
  | finished
  | error (msg : String)
deriving DecidableEq

def Event.isProgress : Event → Bool
  | .progress _ _ => true
  | _ => false

def Event.isFinished : Event → Bool
  | .finished => true
  | _ => false

def Event.isError : Event → Bool
  | .error _ => true
  | _ => false

def Event.isCallProcess : Event → Bool
  | .callProcess _ => true
  | _ => false

def Event.isCallSave : Event → Bool
  | .callSave _ _ _ => true
  | _ => false

namespace ProcessingThread

/-- File-system effect of lines 70-72 for one successful `process_file`
outcome `r = (result, output_path)`: when the result is truthy,
`save_result` runs (and may rewrite the file system); otherwise nothing
happens. -/
def stepFS (writeOk : String → Bool) (fs : FS) (r : Option String × String) : FS :=
  if truthy r.1 then (LLMProcessor.save_result writeOk fs (r.1.getD "") r.2).1 else fs

/-- Events of lines 70-72 for one successful `process_file` outcome: when
the result is truthy, the `save_result` invocation record (carrying the
Boolean it returned, which line 71 ignores) followed by the `result_ready`
signal; otherwise none. -/
def stepEvents (writeOk : String → Bool) (fs : FS) (r : Option String × String) : List Event :=
  if truthy r.1 then
    [Event.callSave (r.1.getD "") r.2 (LLMProcessor.save_result writeOk fs (r.1.getD "") r.2).2,
     Event.resultReady (r.1.getD "")]
  else []

/-- The loop of `ProcessingThread.run` (lines 68-74), from position `i` of
the remaining file list.  `pf` is the `process_file` oracle: either an
exception message or `(result, output_path)`.  If `pf` raises, the `except`
block emits one `error` signal and the loop stops; otherwise the truthiness
step of lines 70-72 happens and a `progress (i+1, total)` signal follows
unconditionally; after the last file one `finished` signal is emitted. -/
def runAux (pf : String → Except String (Option String × String))
    (writeOk : String → Bool) (total : Nat) :
    Nat → FS → List String → FS × List Event
  | _, fs, [] => (fs, [Event.finished])
  | i, fs, file_path :: rest =>
    match pf file_path with
    | Except.error e => (fs, [Event.callProcess file_path, Event.error e])
    | Except.ok r =>
      let next := runAux pf writeOk total (i + 1) (stepFS writeOk fs r) rest
      (next.1, Event.callProcess file_path :: stepEvents writeOk fs r
        ++ Event.progress (i + 1) total :: next.2)

/-- Model of `ProcessingThread.run` over a file list: the final file system and the
ordered event list. -/
def run (pf : String → Except String (Option String × String))
    (writeOk : String → Bool) (fs : FS) (files : List String) : FS × List Event :=
  runAux pf writeOk files.length 0 fs files

end ProcessingThread

/-- The expected progress-notification block: `n` notifications
`(i+1, total), (i+2, total), ..., (i+n, total)` in order. -/
def progressEvents (total : Nat) : Nat → Nat → List Event
  | _, 0 => []
  | i, n + 1 => Event.progress (i + 1) total :: progressEvents total (i + 1) n

example : splitext "photo.jpg" = ("photo", ".jpg") := by decide
example : splitext ".bashrc" = (".bashrc", "") := by decide
example : splitext "/a/b.c/d" = ("/a/b.c/d", "") := by decide
example : splitext "a.b.c" = ("a.b", ".c") := by decide
example : txt_output_path "photo.jpg" = "photo.txt" := by decide
example : parse_max_length "256" = 256 := by decide
example : parse_max_length "abc" = 256 := by decide
example : parse_max_length "0" = 0 := by decide

example :
    (ProcessingThread.run (fun f => Except.ok (some "cap", f)) (fun _ => true)
        (fun _ => none) ["a.png", "b.png"]).2
      = [Event.callProcess "a.png", Event.callSave "cap" "a.png" true,
         Event.resultReady "cap", Event.progress 1 2,
         Event.callProcess "b.png", Event.callSave "cap" "b.png" true,
         Event.resultReady "cap", Event.progress 2 2, Event.finished] := by decide

example :
    (ProcessingThread.run
        (fun f => if f = "b.png" then Except.error "boom" else Except.ok (some "cap", f))
        (fun _ => true) (fun _ => none) ["a.png", "b.png", "c.png"]).2
      = [Event.callProcess "a.png", Event.callSave "cap" "a.png" true,
         Event.resultReady "cap", Event.progress 1 3,
         Event.callProcess "b.png", Event.error "boom"] := by decide

example :
    (ProcessingThread.run (fun f => Except.ok (some "", f)) (fun _ => true)
        (fun _ => none) ["a.png"]).2
      = [Event.callProcess "a.png", Event.progress 1 1, Event.finished] := by decide

example :
    ((LLMProcessor.init "http://localhost:5001" "sys" "instr" 256).process_file
        (fun _ p => Except.ok ("ENC", p)) (fun _ => Except.ok (some "cap")) "a.png").2
      = [Call.image 384 "a.png",
         Call.generate
           { instruction := "instr", system_instruction := "sys", images := ["ENC"],
             max_length := 256, top_p := 95 / 100, top_k := 0, temp := 6 / 10,
             rep_pen := 11 / 10, min_p := 1 / 10 }] := rfl

/-- The root and extension returned by `splitext` concatenate back to the
input path. -/
theorem splitext_fst_append_snd (p : String) : (splitext p).1 ++ (splitext p).2 = p := by
  unfold splitext
  split
  · exact congrArg String.mk (List.take_append_drop _ _)
  · exact congrArg String.mk (List.append_nil _)

/-- Claim C4: for every source file path, the persisted path is the source
path's base name (directory plus stem, i.e. the path with its `splitext`
extension removed) followed by `.txt`, regardless of the source extension;
for example `photo.jpg` maps to `photo.txt`. -/
theorem c4_output_path (p : String) :
    txt_output_path p = (splitext p).1 ++ ".txt"
      ∧ (splitext p).1 ++ (splitext p).2 = p
      ∧ txt_output_path "photo.jpg" = "photo.txt" :=
  ⟨rfl, splitext_fst_append_snd p, by decide⟩

/-- Claim C5: when writing to the derived path succeeds, `save_result` fully
overwrites: after saving `r1` and then `r2` to the same output path, the
file's content is exactly `r2` (so saving the same text twice leaves exactly
that text, no append), after any single successful save the content equals
the text of that most recent call, and the call reports success. -/
theorem c5_overwrite (writeOk : String → Bool) (fs : FS) (r1 r2 p : String)
    (h : writeOk (txt_output_path p) = true) :
    (LLMProcessor.save_result writeOk
        ((LLMProcessor.save_result writeOk fs r1 p).1) r2 p).1 (txt_output_path p) = some r2
    ∧ (LLMProcessor.save_result writeOk fs r1 p).1 (txt_output_path p) = some r1
    ∧ (LLMProcessor.save_result writeOk fs r1 p).2 = true := by
  unfold LLMProcessor.save_result
  simp [h]

theorem c5_witness :
    (LLMProcessor.save_result (fun _ => true)
        ((LLMProcessor.save_result (fun _ => true) (fun _ => none) "text" "a.png").1)
        "text" "a.png").1 (txt_output_path "a.png") = some "text"
    ∧ (LLMProcessor.save_result (fun _ => true) (fun _ => none) "text" "a.png").1
        (txt_output_path "a.png") = some "text"
    ∧ (LLMProcessor.save_result (fun _ => true) (fun _ => none) "text" "a.png").2 = true :=
  c5_overwrite (fun _ => true) (fun _ => none) "text" "text" "a.png" rfl

/-- Claim C6 fails as stated: the digit string `"0"` passes the `isdigit`
guard, so the configured limit is `int("0") = 0`, which is not positive. -/
theorem c6_counterexample : parse_max_length "0" = 0 ∧ ¬ 0 < parse_max_length "0" := by
  decide

/-- Claim C6, amended: for every output-length-limit input string the
configured limit is positive, unless the input is a digit string denoting
zero (such as `"0"`), in which case the configured limit is the non-positive
value `0`. -/
theorem c6_amended (s : String) :
    0 < parse_max_length s ∨ (isdigit s = true ∧ parse_max_length s = 0) := by
  by_cases hd : isdigit s = true
  · by_cases hz : strToNat s = 0
    · exact Or.inr ⟨hd, by unfold parse_max_length; rw [if_pos hd]; exact hz⟩
    · exact Or.inl (by unfold parse_max_length; rw [if_pos hd]; omega)
  · exact Or.inl (by unfold parse_max_length; rw [if_neg hd]; omega)

/-- Claim C7: the input string `"256"` configures the limit 256, and the
non-numeric input string `"abc"` silently falls back to the default 256. -/
theorem c7_max_length_defaults :
    parse_max_length "256" = 256 ∧ parse_max_length "abc" = 256 := by decide

/-- Claim C10: started on an empty file list, the worker's run emits no
progress notification, no error notification, and exactly one `finished`
notification (its full event list is `[finished]`), leaving the file system
untouched. -/
theorem c10_empty_file_list (pf : String → Except String (Option String × String))
    (writeOk : String → Bool) (fs : FS) :
    ProcessingThread.run pf writeOk fs [] = (fs, [Event.finished]) := rfl

/-- Claim C8: `process_file` first calls the image-preprocessing
collaborator with the processor's configured maximum dimension (which
`__init__` sets to 384) and the file path, and then — whenever preprocessing
succeeds — calls the inference collaborator exactly once, with sampling
configuration top_p 0.95, top_k 0, temperature 0.6, repetition penalty 1.1,
min_p 0.1, and the configured maximum output length; its ordered call trace
is exactly those two calls. -/
theorem c8_process_file_calls (api_url sys instr : String) (ml : Nat)
    (procImage : Nat → String → Except String (String × String))
    (gen : GenParams → Except String (Option String))
    (path enc op : String)
    (h : procImage (LLMProcessor.init api_url sys instr ml).max_dimension path
           = Except.ok (enc, op)) :
    (LLMProcessor.init api_url sys instr ml).max_dimension = 384
    ∧ ((LLMProcessor.init api_url sys instr ml).process_file procImage gen path).2
        = [Call.image 384 path,
           Call.generate
             { instruction := instr, system_instruction := sys, images := [enc],
               max_length := ml, top_p := 95 / 100, top_k := 0, temp := 6 / 10,
               rep_pen := 11 / 10, min_p := 1 / 10 }] := by
  refine ⟨rfl, ?_⟩
  unfold LLMProcessor.process_file
  rw [h]
  exact rfl

theorem c8_witness :
    (LLMProcessor.init "http://localhost:5001" "sys" "instr" 256).max_dimension = 384
    ∧ ((LLMProcessor.init "http://localhost:5001" "sys" "instr" 256).process_file
        (fun _ p => Except.ok ("ENC", p)) (fun _ => Except.ok (some "cap")) "a.png").2
      = [Call.image 384 "a.png",
         Call.generate
           { instruction := "instr", system_instruction := "sys", images := ["ENC"],
             max_length := 256, top_p := 95 / 100, top_k := 0, temp := 6 / 10,
             rep_pen := 11 / 10, min_p := 1 / 10 }] :=
  c8_process_file_calls "http://localhost:5001" "sys" "instr" 256
    (fun _ p => Except.ok ("ENC", p)) (fun _ => Except.ok (some "cap")) "a.png" "ENC" "a.png" rfl

/-- Claim C9: when `process_file` returns the empty string as the generated
text, the worker treats it as absent: the file's contribution to the run is
exactly a `process_file` invocation record followed by the progress
notification — no `save_result` invocation, no result-text notification —
and the file system is left untouched, the run continuing with the rest of
the list. -/
theorem c9_empty_text (pf : String → Except String (Option String × String))
    (writeOk : String → Bool) (fs : FS) (f op : String) (rest : List String)
    (h : pf f = Except.ok (some "", op)) :
    ProcessingThread.run pf writeOk fs (f :: rest)
      = ((ProcessingThread.runAux pf writeOk (rest.length + 1) 1 fs rest).1,
         Event.callProcess f :: Event.progress 1 (rest.length + 1)
           :: (ProcessingThread.runAux pf writeOk (rest.length + 1) 1 fs rest).2) := by
  show ProcessingThread.runAux pf writeOk (f :: rest).length 0 fs (f :: rest) = _
  conv_lhs => unfold ProcessingThread.runAux
  rw [h]
  exact rfl

theorem c9_witness :
    ProcessingThread.run (fun g => Except.ok (some "", g)) (fun _ => true) (fun _ => none)
        ["a.png", "b.png"]
      = ((ProcessingThread.runAux (fun g => Except.ok (some "", g)) (fun _ => true) 2 1
            (fun _ => none) ["b.png"]).1,
         Event.callProcess "a.png" :: Event.progress 1 2
           :: (ProcessingThread.runAux (fun g => Except.ok (some "", g)) (fun _ => true) 2 1
                (fun _ => none) ["b.png"]).2) :=
  c9_empty_text (fun g => Except.ok (some "", g)) (fun _ => true) (fun _ => none)
    "a.png" "a.png" ["b.png"] rfl

/-- Unfolding `runAux` when `process_file` raises on the head file. -/
theorem runAux_cons_err (pf : String → Except String (Option String × String))
    (writeOk : String → Bool) (total i : Nat) (fs : FS) (f e : String)
    (rest : List String) (hf : pf f = Except.error e) :
    ProcessingThread.runAux pf writeOk total i fs (f :: rest)
      = (fs, [Event.callProcess f, Event.error e]) := by
  conv_lhs => unfold ProcessingThread.runAux
  rw [hf]

/-- Unfolding `runAux` when `process_file` succeeds on the head file. -/
theorem runAux_cons_ok (pf : String → Except String (Option String × String))
    (writeOk : String → Bool) (total i : Nat) (fs : FS) (f : String)
    (rest : List String) (r : Option String × String) (hf : pf f = Except.ok r) :
    ProcessingThread.runAux pf writeOk total i fs (f :: rest)
      = ((ProcessingThread.runAux pf writeOk total (i + 1)
            (ProcessingThread.stepFS writeOk fs r) rest).1,
         Event.callProcess f :: ProcessingThread.stepEvents writeOk fs r
           ++ Event.progress (i + 1) total
             :: (ProcessingThread.runAux pf writeOk total (i + 1)
                   (ProcessingThread.stepFS writeOk fs r) rest).2) := by
  conv_lhs => unfold ProcessingThread.runAux
  rw [hf]

/-- Event-list part of `runAux_cons_err`. -/
theorem runAux_cons_err_snd (pf : String → Except String (Option String × String))
    (writeOk : String → Bool) (total i : Nat) (fs : FS) (f e : String)
    (rest : List String) (hf : pf f = Except.error e) :
    (ProcessingThread.runAux pf writeOk total i fs (f :: rest)).2
      = [Event.callProcess f, Event.error e] := by
  rw [runAux_cons_err pf writeOk total i fs f e rest hf]

/-- Event-list part of `runAux_cons_ok`. -/
theorem runAux_cons_ok_snd (pf : String → Except String (Option String × String))
    (writeOk : String → Bool) (total i : Nat) (fs : FS) (f : String)
    (rest : List String) (r : Option String × String) (hf : pf f = Except.ok r) :
    (ProcessingThread.runAux pf writeOk total i fs (f :: rest)).2
      = Event.callProcess f :: ProcessingThread.stepEvents writeOk fs r
          ++ Event.progress (i + 1) total
            :: (ProcessingThread.runAux pf writeOk total (i + 1)
                  (ProcessingThread.stepFS writeOk fs r) rest).2 := by
  rw [runAux_cons_ok pf writeOk total i fs f rest r hf]

/-- The per-file truthiness block emits no progress, finished, error, or
process-invocation event. -/
theorem stepEvents_filter_none (writeOk : String → Bool) (fs : FS)
    (r : Option String × String) (pred : Event → Bool)
    (h1 : ∀ a b c, pred (Event.callSave a b c) = false)
    (h2 : ∀ s, pred (Event.resultReady s) = false) :
    (ProcessingThread.stepEvents writeOk fs r).filter pred = [] := by
  unfold ProcessingThread.stepEvents
  cases truthy r.1
  · rfl
  · simp [List.filter_cons, h1, h2]

/-- Dropping the `save_result` invocation records, the per-file truthiness
block's events do not depend on the persistence layer. -/
theorem stepEvents_filter_not_save (writeOk writeOk' : String → Bool) (fs fs' : FS)
    (r : Option String × String) :
    (ProcessingThread.stepEvents writeOk fs r).filter (fun x => !x.isCallSave)
      = (ProcessingThread.stepEvents writeOk' fs' r).filter (fun x => !x.isCallSave) := by
  unfold ProcessingThread.stepEvents
  cases truthy r.1 <;> rfl

/-- Filtering one successful file's event block with a predicate that keeps
progress notifications and drops the rest keeps exactly the progress
notification. -/
theorem filter_block_progress (writeOk : String → Bool) (fs : FS)
    (r : Option String × String) (pred : Event → Bool) (f : String) (c total : Nat)
    (tail : List Event)
    (h0 : pred (Event.callProcess f) = false)
    (h1 : ∀ a b c, pred (Event.callSave a b c) = false)
    (h2 : ∀ s, pred (Event.resultReady s) = false)
    (h3 : pred (Event.progress c total) = true) :
    (Event.callProcess f :: ProcessingThread.stepEvents writeOk fs r
        ++ Event.progress c total :: tail).filter pred
      = Event.progress c total :: tail.filter pred := by
  simp [List.filter_cons, List.filter_append, h0, h3,
    stepEvents_filter_none writeOk fs r pred h1 h2]

/-- Filtering one successful file's event block with a predicate that keeps
only `process_file` invocation records keeps exactly that record. -/
theorem filter_block_callproc (writeOk : String → Bool) (fs : FS)
    (r : Option String × String) (pred : Event → Bool) (f : String) (c total : Nat)
    (tail : List Event)
    (h0 : pred (Event.callProcess f) = true)
    (h1 : ∀ a b c, pred (Event.callSave a b c) = false)
    (h2 : ∀ s, pred (Event.resultReady s) = false)
    (h3 : pred (Event.progress c total) = false) :
    (Event.callProcess f :: ProcessingThread.stepEvents writeOk fs r
        ++ Event.progress c total :: tail).filter pred
      = Event.callProcess f :: tail.filter pred := by
  simp [List.filter_cons, List.filter_append, h0, h3,
    stepEvents_filter_none writeOk fs r pred h1 h2]

/-- Filtering one successful file's event block with a predicate that drops
every event kind the block can contain leaves only the tail's survivors. -/
theorem filter_block_none (writeOk : String → Bool) (fs : FS)
    (r : Option String × String) (pred : Event → Bool) (f : String) (c total : Nat)
    (tail : List Event)
    (h0 : pred (Event.callProcess f) = false)
    (h1 : ∀ a b c, pred (Event.callSave a b c) = false)
    (h2 : ∀ s, pred (Event.resultReady s) = false)
    (h3 : pred (Event.progress c total) = false) :
    (Event.callProcess f :: ProcessingThread.stepEvents writeOk fs r
        ++ Event.progress c total :: tail).filter pred
      = tail.filter pred := by
  simp [List.filter_cons, List.filter_append, h0, h3,
    stepEvents_filter_none writeOk fs r pred h1 h2]

/-- Rewriting `progressEvents` with `List.range`. -/
theorem progressEvents_eq_range (total : Nat) : ∀ (n i : Nat),
    progressEvents total i n = (List.range n).map fun k => Event.progress (i + k + 1) total := by
  intro n
  induction n with
  | zero => intro i; rfl
  | succ n ih =>
    intro i
    rw [List.range_succ_eq_map]
    simp only [List.map_cons, List.map_map]
    unfold progressEvents
    rw [ih (i + 1)]
    refine congrArg₂ List.cons (by simp) ?_
    apply List.map_congr_left
    intro k _
    show Event.progress (i + 1 + k + 1) total = Event.progress (i + (k + 1) + 1) total
    congr 1
    omega

/-- When every remaining file succeeds, the progress/finished notifications
of the loop from position `i` are exactly the block `(i+1, total), ...,
(i+n, total)` followed by one `finished`, and no error notification is
emitted. -/
theorem runAux_ok_filter (pf : String → Except String (Option String × String))
    (writeOk : String → Bool) (total : Nat) :
    ∀ (l : List String) (i : Nat) (fs : FS),
      (∀ f ∈ l, ∃ r, pf f = Except.ok r) →
      ((ProcessingThread.runAux pf writeOk total i fs l).2.filter
          (fun x => x.isProgress || x.isFinished)
        = progressEvents total i l.length ++ [Event.finished])
      ∧ ((ProcessingThread.runAux pf writeOk total i fs l).2.filter Event.isError = []) := by
  intro l
  induction l with
  | nil => intro i fs _; exact ⟨rfl, rfl⟩
  | cons f rest ih =>
    intro i fs hok
    obtain ⟨r, hf⟩ := hok f (List.mem_cons_self f rest)
    have hrest : ∀ g ∈ rest, ∃ r, pf g = Except.ok r :=
      fun g hg => hok g (List.mem_cons_of_mem f hg)
    have ihr := ih (i + 1) (ProcessingThread.stepFS writeOk fs r) hrest
    rw [runAux_cons_ok_snd pf writeOk total i fs f rest r hf]
    constructor
    · rw [filter_block_progress writeOk fs r _ f (i + 1) total _ rfl
          (fun _ _ _ => rfl) (fun _ => rfl) rfl, ihr.1]
      simp [progressEvents]
    · rw [filter_block_none writeOk fs r _ f (i + 1) total _ rfl
          (fun _ _ _ => rfl) (fun _ => rfl) rfl]
      exact ihr.2

/-- When every file before the failing one succeeds and `process_file`
raises on `f`, the progress/finished/error notifications of the loop from
position `i` are the progress block for the preceding files followed by one
error notification (no finished), and exactly the files up to and including
`f` are processed. -/
theorem runAux_err_filter (pf : String → Except String (Option String × String))
    (writeOk : String → Bool) (total : Nat) (f e : String) (post : List String)
    (hf : pf f = Except.error e) :
    ∀ (pre : List String) (i : Nat) (fs : FS),
      (∀ g ∈ pre, ∃ r, pf g = Except.ok r) →
      ((ProcessingThread.runAux pf writeOk total i fs (pre ++ f :: post)).2.filter
          (fun x => x.isProgress || x.isFinished || x.isError)
        = progressEvents total i pre.length ++ [Event.error e])
      ∧ ((ProcessingThread.runAux pf writeOk total i fs (pre ++ f :: post)).2.filter
          Event.isCallProcess = (pre ++ [f]).map Event.callProcess) := by
  intro pre
  induction pre with
  | nil =>
    intro i fs _
    rw [List.nil_append, runAux_cons_err pf writeOk total i fs f e post hf]
    exact ⟨rfl, rfl⟩
  | cons g pre ih =>
    intro i fs hok
    obtain ⟨r, hg⟩ := hok g (List.mem_cons_self g pre)
    have hpre : ∀ x ∈ pre, ∃ r, pf x = Except.ok r :=
      fun x hx => hok x (List.mem_cons_of_mem g hx)
    have ihr := ih (i + 1) (ProcessingThread.stepFS writeOk fs r) hpre
    rw [List.cons_append, runAux_cons_ok_snd pf writeOk total i fs g (pre ++ f :: post) r hg]
    constructor
    · rw [filter_block_progress writeOk fs r _ g (i + 1) total _ rfl
          (fun _ _ _ => rfl) (fun _ => rfl) rfl, ihr.1]
      simp [progressEvents]
    · rw [filter_block_callproc writeOk fs r _ g (i + 1) total _ rfl
          (fun _ _ _ => rfl) (fun _ => rfl) rfl, ihr.2]
      simp

/-- Dropping the `save_result` invocation records, the loop's event list
does not depend on the persistence layer (write-failure oracle or file
system). -/
theorem runAux_filter_not_save (pf : String → Except String (Option String × String))
    (writeOk writeOk' : String → Bool) (total : Nat) :
    ∀ (l : List String) (i : Nat) (fs fs' : FS),
      ((ProcessingThread.runAux pf writeOk total i fs l).2.filter fun x => !x.isCallSave)
        = ((ProcessingThread.runAux pf writeOk' total i fs' l).2.filter fun x => !x.isCallSave) := by
  intro l
  induction l with
  | nil => intro i fs fs'; rfl
  | cons f rest ih =>
    intro i fs fs'
    cases hf : pf f with
    | error e =>
      rw [runAux_cons_err pf writeOk total i fs f e rest hf,
        runAux_cons_err pf writeOk' total i fs' f e rest hf]
    | ok r =>
      rw [runAux_cons_ok pf writeOk total i fs f rest r hf,
        runAux_cons_ok pf writeOk' total i fs' f rest r hf]
      simp only [List.filter_cons, List.filter_append]
      rw [stepEvents_filter_not_save writeOk writeOk' fs fs' r,
        ih (i + 1) (ProcessingThread.stepFS writeOk fs r) (ProcessingThread.stepFS writeOk' fs' r)]

/-- Claim C1: on a non-empty file list of length N on which `process_file`
succeeds for every file, the run's progress/finished notifications, in
emission order, are exactly the N progress notifications `(1, N), ..., (N, N)`
(second component N, first components strictly increasing 1..N) followed by
exactly one completion notification, and no error notification is emitted. -/
theorem c1_successful_run (pf : String → Except String (Option String × String))
    (writeOk : String → Bool) (fs : FS) (files : List String)
    (_hne : files ≠ []) (hok : ∀ f ∈ files, ∃ r, pf f = Except.ok r) :
    ((ProcessingThread.run pf writeOk fs files).2.filter
        (fun x => x.isProgress || x.isFinished)
      = ((List.range files.length).map fun k => Event.progress (k + 1) files.length)
          ++ [Event.finished])
    ∧ ((ProcessingThread.run pf writeOk fs files).2.filter Event.isError = []) := by
  have h := runAux_ok_filter pf writeOk files.length files 0 fs hok
  refine ⟨?_, h.2⟩
  show (ProcessingThread.runAux pf writeOk files.length 0 fs files).2.filter _ = _
  rw [h.1, progressEvents_eq_range]
  simp only [Nat.zero_add]

theorem c1_witness :
    ((ProcessingThread.run (fun f => Except.ok (some "cap", f)) (fun _ => true)
        (fun _ => none) ["a.png", "b.png"]).2.filter
        (fun x => x.isProgress || x.isFinished)
      = [Event.progress 1 2, Event.progress 2 2, Event.finished])
    ∧ ((ProcessingThread.run (fun f => Except.ok (some "cap", f)) (fun _ => true)
        (fun _ => none) ["a.png", "b.png"]).2.filter Event.isError = []) := by
  have h := c1_successful_run (fun f => Except.ok (some "cap", f)) (fun _ => true)
    (fun _ => none) ["a.png", "b.png"] (by decide) (fun f _ => ⟨(some "cap", f), rfl⟩)
  exact ⟨h.1.trans (by decide), h.2⟩

/-- Claim C2: writing the file list as `pre ++ f :: post` with every file of
`pre` succeeding and `process_file` raising `e` on `f` (position i = pre.length),
the run's progress/finished/error notifications are exactly the i progress
notifications for the files before `f` followed by one error notification
carrying `e` — so zero progress notifications for positions ≥ i and no
completion notification — and the files processed are exactly `pre ++ [f]`:
nothing after position i is processed. -/
theorem c2_inference_failure (pf : String → Except String (Option String × String))
    (writeOk : String → Bool) (fs : FS) (pre post : List String) (f e : String)
    (hok : ∀ g ∈ pre, ∃ r, pf g = Except.ok r) (hf : pf f = Except.error e) :
    ((ProcessingThread.run pf writeOk fs (pre ++ f :: post)).2.filter
        (fun x => x.isProgress || x.isFinished || x.isError)
      = ((List.range pre.length).map fun k =>
            Event.progress (k + 1) (pre ++ f :: post).length)
          ++ [Event.error e])
    ∧ ((ProcessingThread.run pf writeOk fs (pre ++ f :: post)).2.filter
        Event.isCallProcess = (pre ++ [f]).map Event.callProcess) := by
  have h := runAux_err_filter pf writeOk (pre ++ f :: post).length f e post hf pre 0 fs hok
  refine ⟨?_, h.2⟩
  show (ProcessingThread.runAux pf writeOk (pre ++ f :: post).length 0 fs
          (pre ++ f :: post)).2.filter _ = _
  rw [h.1, progressEvents_eq_range]
  simp only [Nat.zero_add]

theorem c2_witness :
    ((ProcessingThread.run
        (fun g => if g = "b.png" then Except.error "boom" else Except.ok (some "cap", g))
        (fun _ => true) (fun _ => none) (["a.png"] ++ "b.png" :: ["c.png"])).2.filter
        (fun x => x.isProgress || x.isFinished || x.isError)
      = [Event.progress 1 3, Event.error "boom"])
    ∧ ((ProcessingThread.run
        (fun g => if g = "b.png" then Except.error "boom" else Except.ok (some "cap", g))
        (fun _ => true) (fun _ => none) (["a.png"] ++ "b.png" :: ["c.png"])).2.filter
        Event.isCallProcess
      = [Event.callProcess "a.png", Event.callProcess "b.png"]) := by
  have h := c2_inference_failure
    (fun g => if g = "b.png" then Except.error "boom" else Except.ok (some "cap", g))
    (fun _ => true) (fun _ => none) ["a.png"] ["c.png"] "b.png" "boom"
    (by intro g hg; simp only [List.mem_singleton] at hg; subst hg
        exact ⟨(some "cap", "a.png"), rfl⟩)
    rfl
  exact ⟨h.1.trans (by decide), h.2.trans (by decide)⟩

/-- Claim C3: if writing to the derived output path fails, `save_result`
returns `false` and leaves the file system unchanged instead of raising; and
the run's event sequence, apart from the `save_result` invocation records
themselves, is identical under any two persistence layers — so a
persistence failure changes no progress notification, stops no later file
from being processed, and never aborts the run. -/
theorem c3_persistence_failure (writeOk writeOk' : String → Bool) (fs fs' : FS)
    (r p : String) (pf : String → Except String (Option String × String))
    (files : List String)
    (h : writeOk (txt_output_path p) = false) :
    LLMProcessor.save_result writeOk fs r p = (fs, false)
    ∧ ((ProcessingThread.run pf writeOk fs files).2.filter fun x => !x.isCallSave)
        = ((ProcessingThread.run pf writeOk' fs' files).2.filter fun x => !x.isCallSave) := by
  constructor
  · unfold LLMProcessor.save_result
    simp [h]
  · exact runAux_filter_not_save pf writeOk writeOk' files.length files 0 fs fs'

theorem c3_witness :
    LLMProcessor.save_result (fun _ => false) (fun _ => none) "cap" "a.png"
      = ((fun _ => none), false)
    ∧ ((ProcessingThread.run (fun g => Except.ok (some "cap", g)) (fun _ => false)
          (fun _ => none) ["a.png", "b.png"]).2.filter fun x => !x.isCallSave)
        = ((ProcessingThread.run (fun g => Except.ok (some "cap", g)) (fun _ => true)
          (fun _ => none) ["a.png", "b.png"]).2.filter fun x => !x.isCallSave) :=
  c3_persistence_failure (fun _ => false) (fun _ => true) (fun _ => none) (fun _ => none)
    "cap" "a.png" (fun g => Except.ok (some "cap", g)) ["a.png", "b.png"] rfl

end JoyCaption
